import Mathlib

/-!
Verification of the CHIP-8 interpreter (`src/display.ts`, `src/intructions.ts`,
`src/registers.ts`, `src/main.ts`) against its natural-language specification.

The interpreter is written in TypeScript; its numbers are IEEE doubles, but every
value the modelled code manipulates is a small dyadic rational (integers, and
halves produced by `SHR`'s `/= 2`), on which double arithmetic is exact.  We
therefore embed JS numbers as `ℚ`.  JS bitwise operators coerce through ToInt32;
`jsAnd`/`jsOr`/`jsXor` below implement exactly that coercion.  JS `%` with a
nonnegative dividend and positive divisor equals `jsMod` below (trunc = floor
there); the one caller, `wrap`, only applies it to such arguments.
-/

/-- Truncation toward zero, as JS ToIntegerOrInfinity does on finite numbers. -/
def jsTrunc (q : ℚ) : ℤ := if q < 0 then -⌊-q⌋ else ⌊q⌋

/-- JS `%` (fmod) for a nonnegative dividend and positive divisor. -/
def jsMod (q m : ℚ) : ℚ := q - m * (⌊q / m⌋ : ℤ)

/-- JS ToUint32: truncate, then reduce modulo 2^32 into 0..2^32-1. -/
def toUint32 (q : ℚ) : ℕ := ((jsTrunc q) % (4294967296 : ℤ)).toNat

/-- Reinterpret a 32-bit pattern as a signed int32, as JS bitwise operators do. -/
def fromInt32bits (u : ℕ) : ℚ := if u < 2147483648 then (u : ℚ) else (u : ℚ) - 4294967296

/-- JS `&` on numbers. -/
def jsAnd (p q : ℚ) : ℚ := fromInt32bits ((toUint32 p) &&& (toUint32 q))

/-- JS `|` on numbers. -/
def jsOr (p q : ℚ) : ℚ := fromInt32bits ((toUint32 p) ||| (toUint32 q))

/-- JS `^` on numbers. -/
def jsXor (p q : ℚ) : ℚ := fromInt32bits ((toUint32 p) ^^^ (toUint32 q))

/-- A JS number used as an array index; the modelled code only ever does this
with nonnegative integer values. -/
def qToNat (q : ℚ) : ℕ := (jsTrunc q).toNat

/-- The overflow helper `wrap` inside the register Proxy `set` trap in
`src/registers.ts`: negative values go through `Math.abs` and are subtracted
from `max`; others are reduced with `%`. -/
def wrap (value max : ℚ) : ℚ :=
  if value < 0 then max - jsMod |value| max else jsMod value max

/-- The machine state: the register file and stack of `src/registers.ts`, the
`displayState` array of `src/display.ts` (keyed by the linear index
`y * 64 + x`, exactly as the code indexes it; absent entries read as JS
`undefined`, i.e. falsy), and the byte memory.  `ram.ts` is not among the
sources; memory is modelled from the spec as a byte store addressed by
naturals (4 KiB program area, zero elsewhere).  The JS stack array's
top-of-stack end is the head of the list. -/
structure Machine where
  v : Fin 16 → ℚ
  addressIndex : ℚ
  delayTimer : ℚ
  soundTimer : ℚ
  programCounter : ℚ
  stack : List ℚ
  display : ℚ → Bool
  mem : ℕ → ℕ

/-- Writing a general register through the Proxy wraps at 256. -/
def setV (s : Machine) (i : Fin 16) (val : ℚ) : Machine :=
  { s with v := Function.update s.v i (wrap val 256) }

/-- Writing the delay timer through the Proxy wraps at 256. -/
def setDT (s : Machine) (val : ℚ) : Machine := { s with delayTimer := wrap val 256 }

/-- Writing the sound timer through the Proxy wraps at 256. -/
def setST (s : Machine) (val : ℚ) : Machine := { s with soundTimer := wrap val 256 }

/-- Writing the address index register through the Proxy wraps at 65536. -/
def setI (s : Machine) (val : ℚ) : Machine := { s with addressIndex := wrap val 65536 }

/-- Writing the program counter through the Proxy wraps at 65536. -/
def setPC (s : Machine) (val : ℚ) : Machine := { s with programCounter := wrap val 65536 }

/-- `reg(which)` of `src/registers.ts` maps a nibble 0..15 to the property
name v0..vF; callers always pass a masked nibble, so the `% 16` is the
identity there. -/
def regIdx (n : ℕ) : Fin 16 := ⟨n % 16, Nat.mod_lt _ (by norm_num)⟩

/-- `nnn(c, b, a)` of `src/registers.ts`. -/
def nnn (c b a : ℕ) : ℕ := (c <<< 8) ||| (b <<< 4) ||| a

/-- `kk(b, a)` of `src/registers.ts`. -/
def kk (b a : ℕ) : ℕ := (b <<< 4) ||| a

/-- `toggleTile(x, y)` of `src/display.ts`: reads and flips the entry at the
linear position `y * NUM_TILES_WIDTH + x` with NO reduction of the
coordinates, returning whether the tile was erased (was on). -/
def toggleTile (d : ℚ → Bool) (x y : ℚ) : (ℚ → Bool) × Bool :=
  let pos := y * 64 + x
  let isOn := d pos
  if isOn then (fun p => if p = pos then false else d p, true)
  else (fun p => if p = pos then true else d p, false)

/-- `clearDisplay()` of `src/display.ts` paints the rendering canvas white via
`ctx.fillRect`; it does not touch the `displayState` array, so the modelled
machine state is unchanged (rendering is an external collaborator per the
spec). -/
def cls (s : Machine) : Machine := s

/-- Modelled from the spec: `ram.ts` is absent from the sources.
`memoryMap.slice(I, I + a)` for the nonnegative integer `I` values arising in
execution; in the modelled memory, bytes outside the 4 KiB program area are 0,
which draws nothing, matching JS slice clamping at the array end. -/
def memSlice (mem : ℕ → ℕ) (start : ℚ) (len : ℕ) : List ℕ :=
  (List.range len).map (fun k => mem (qToNat start + k))

/-- 00EE - RET (`ret` in `src/intructions.ts`): pops the stack; the popped
value is assigned to the program counter only when it is truthy (a JS number
is falsy exactly when it is 0), so an empty-stack pop (undefined) and a popped
0 both leave the PC untouched. -/
def ret (s : Machine) : Machine :=
  match s.stack with
  | [] => s
  | returnAddr :: rest =>
      let s1 := { s with stack := rest }
      if returnAddr = 0 then s1 else setPC s1 returnAddr

/-- 1nnn - JP addr (`jpAddr`). -/
def jpAddr (s : Machine) (c b a : ℕ) : Machine := setPC s (nnn c b a)

/-- 2nnn - CALL addr (`call`): pushes the current (un-advanced) PC, then jumps. -/
def call (s : Machine) (c b a : ℕ) : Machine :=
  setPC { s with stack := s.programCounter :: s.stack } (nnn c b a)

/-- 3xkk - SE Vx, byte (`seByte`). -/
def seByte (s : Machine) (c b a : ℕ) : Machine :=
  if s.v (regIdx c) = (kk b a : ℚ) then setPC s (s.programCounter + 2) else s

/-- 4xkk - SNE Vx, byte (`sneByte`). -/
def sneByte (s : Machine) (c b a : ℕ) : Machine :=
  if s.v (regIdx c) ≠ (kk b a : ℚ) then setPC s (s.programCounter + 2) else s

/-- 5xy0 - SE Vx, Vy (`seReg`). -/
def seReg (s : Machine) (c b : ℕ) : Machine :=
  if s.v (regIdx c) = s.v (regIdx b) then setPC s (s.programCounter + 2) else s

/-- 6xkk - LD Vx, byte (`ldByte`). -/
def ldByte (s : Machine) (c b a : ℕ) : Machine := setV s (regIdx c) (kk b a)

/-- 7xkk - ADD Vx, byte (`addByte`). -/
def addByte (s : Machine) (c b a : ℕ) : Machine :=
  setV s (regIdx c) (s.v (regIdx c) + (kk b a : ℚ))

/-- 8xy0 - LD Vx, Vy (`ldVx`). -/
def ldVx (s : Machine) (c b : ℕ) : Machine := setV s (regIdx c) (s.v (regIdx b))

/-- 8xy1 - OR Vx, Vy (`or` in the source; renamed to avoid the core name). -/
def orOp (s : Machine) (c b : ℕ) : Machine :=
  setV s (regIdx c) (jsOr (s.v (regIdx c)) (s.v (regIdx b)))

/-- 8xy2 - AND Vx, Vy (`and` in the source; renamed to avoid the core name). -/
def andOp (s : Machine) (c b : ℕ) : Machine :=
  setV s (regIdx c) (jsAnd (s.v (regIdx c)) (s.v (regIdx b)))

/-- 8xy3 - XOR Vx, Vy (`xor` in the source; renamed to avoid the core name). -/
def xorOp (s : Machine) (c b : ℕ) : Machine :=
  setV s (regIdx c) (jsXor (s.v (regIdx c)) (s.v (regIdx b)))

/-- 8xy4 - ADD Vx, Vy (`addReg`): computes the sum, writes the carry flag to
VF FIRST, then writes the truncated sum to Vx (so a data write to vF
overwrites the flag when x = F). -/
def addReg (s : Machine) (c b : ℕ) : Machine :=
  let sum := s.v (regIdx c) + s.v (regIdx b)
  let s1 := setV s 15 (if sum > 255 then 1 else 0)
  setV s1 (regIdx c) (jsAnd sum 255)

/-- 8xy5 - SUB Vx, Vy (`sub` in the source; renamed to avoid the core name). -/
def subOp (s : Machine) (c b : ℕ) : Machine :=
  let difference := s.v (regIdx c) - s.v (regIdx b)
  let s1 := setV s 15 (if difference > 0 then 1 else 0)
  setV s1 (regIdx c) difference

/-- 8xy6 - SHR Vx (`shr`): VF gets the least-significant bit, then the
register is divided by 2 with JS `/=` (exact division, fractional for odd
values); the divided value is read after the VF write, as in the source. -/
def shr (s : Machine) (c : ℕ) : Machine :=
  let s1 := setV s 15 (if jsAnd (s.v (regIdx c)) 1 = 1 then 1 else 0)
  setV s1 (regIdx c) (s1.v (regIdx c) / 2)

/-- 8xy7 - SUBN Vx, Vy (`subn`). -/
def subn (s : Machine) (c b : ℕ) : Machine :=
  let difference := s.v (regIdx b) - s.v (regIdx c)
  let s1 := setV s 15 (if difference > 0 then 1 else 0)
  setV s1 (regIdx c) difference

/-- 8xyE - SHL Vx (`shl`): the source compares `(Vx & 0x80) === 1`, then
multiplies the register by 2; the doubled value is read after the VF write. -/
def shl (s : Machine) (c : ℕ) : Machine :=
  let s1 := setV s 15 (if jsAnd (s.v (regIdx c)) 128 = 1 then 1 else 0)
  setV s1 (regIdx c) (s1.v (regIdx c) * 2)

/-- 9xy0 - SNE Vx, Vy (`sneReg`). -/
def sneReg (s : Machine) (c b : ℕ) : Machine :=
  if s.v (regIdx c) ≠ s.v (regIdx b) then setPC s (s.programCounter + 2) else s

/-- Annn - LD I, addr (`ldi`). -/
def ldi (s : Machine) (c b a : ℕ) : Machine := setI s (nnn c b a)

/-- Bnnn - JP V0, addr (`jpv0Addr`). -/
def jpv0Addr (s : Machine) (c b a : ℕ) : Machine :=
  setPC s ((nnn c b a : ℚ) + s.v 0)

/-- Cxkk - RND (`rnd`): empty stub in the source. -/
def rnd (s : Machine) : Machine := s

/-- Dxyn - DRW (`drw`): reads the sprite rows from memory at I, zeroes VF,
then XOR-draws each set bit via `toggleTile` at the unreduced coordinates
`(x + 7 - i, y + index)`, setting VF to 1 whenever a toggle erased a tile.
The inner loop runs i = 7 down to 0; `masks[i]` is the bit `2 ^ i`. -/
def drw (s : Machine) (c b a : ℕ) : Machine :=
  let x := s.v (regIdx c)
  let y := s.v (regIdx b)
  let bytesToDraw := memSlice s.mem s.addressIndex a
  let s1 := setV s 15 0
  (bytesToDraw.enum).foldl
    (fun s2 p =>
      (List.range 8).foldl
        (fun s3 k =>
          let i := 7 - k
          let bit := ((2 ^ i) &&& p.2) >>> i
          if bit = 0 then s3
          else
            let r := toggleTile s3.display (x + 7 - (i : ℚ)) (y + (p.1 : ℚ))
            let s4 := { s3 with display := r.1 }
            if r.2 then setV s4 15 1 else s4)
        s2)
    s1

/-- Ex9E - SKP (`skp`): empty stub in the source. -/
def skp (s : Machine) : Machine := s

/-- ExA1 - SKNP (`sknp`): empty stub in the source. -/
def sknp (s : Machine) : Machine := s

/-- Fx07 - LD Vx, DT (`ldvxdt`): empty stub in the source. -/
def ldvxdt (s : Machine) : Machine := s

/-- Fx0A - LD Vx, K (`ldkey`): empty stub in the source; it neither blocks
nor reads the keypad nor writes Vx. -/
def ldkey (s : Machine) : Machine := s

/-- Fx15 - LD DT, Vx (`lddtvx`): empty stub in the source. -/
def lddtvx (s : Machine) : Machine := s

/-- Fx18 - LD ST, Vx (`ldstvx`): empty stub in the source. -/
def ldstvx (s : Machine) : Machine := s

/-- Fx1E - ADD I, Vx (`addivx`): empty stub in the source. -/
def addivx (s : Machine) : Machine := s

/-- Fx29 - LD F, Vx (`ldfont`): empty stub in the source. -/
def ldfont (s : Machine) : Machine := s

/-- Fx33 - LD B, Vx (`ldbcd`): empty stub in the source. -/
def ldbcd (s : Machine) : Machine := s

/-- Fx55 - LD [I], Vx (`lda`): empty stub in the source. -/
def lda (s : Machine) : Machine := s

/-- Fx65 - LD Vx, [I] (`ldb`): empty stub in the source. -/
def ldb (s : Machine) : Machine := s

/-- `executeInstruction(opcode)` of `src/intructions.ts`: extracts the four
nibbles with masks and shifts, dispatches on the top nibble `d` (with the
source's sequential `if` chains on `a`, and on `b` for family 0xF), and
returns the mutated state together with the `increment` flag telling the
caller whether to advance the PC by 2. -/
def executeInstruction (s : Machine) (opcode : ℕ) : Machine × Bool :=
  let d := (0xf000 &&& opcode) >>> 12
  let c := (0x0f00 &&& opcode) >>> 8
  let b := (0x00f0 &&& opcode) >>> 4
  let a := (0x000f &&& opcode) >>> 0
  if d = 0x0 then
    let s1 := if a = 0x0 then cls s else s
    if a = 0xe then (ret s1, false) else (s1, true)
  else if d = 0x1 then (jpAddr s c b a, false)
  else if d = 0x2 then (call s c b a, false)
  else if d = 0x3 then (seByte s c b a, true)
  else if d = 0x4 then (sneByte s c b a, true)
  else if d = 0x5 then (seReg s c b, true)
  else if d = 0x6 then (ldByte s c b a, true)
  else if d = 0x7 then (addByte s c b a, true)
  else if d = 0x8 then
    let s1 := if a = 0x0 then ldVx s c b else s
    let s2 := if a = 0x1 then orOp s1 c b else s1
    let s3 := if a = 0x2 then andOp s2 c b else s2
    let s4 := if a = 0x3 then xorOp s3 c b else s3
    let s5 := if a = 0x4 then addReg s4 c b else s4
    let s6 := if a = 0x5 then subOp s5 c b else s5
    let s7 := if a = 0x6 then shr s6 c else s6
    let s8 := if a = 0x7 then subn s7 c b else s7
    let s9 := if a = 0xe then shl s8 c else s8
    (s9, true)
  else if d = 0x9 then (sneReg s c b, true)
  else if d = 0xa then (ldi s c b a, true)
  else if d = 0xb then (jpv0Addr s c b a, false)
  else if d = 0xc then (rnd s, true)
  else if d = 0xd then (drw s c b a, true)
  else if d = 0xe then
    let s1 := if a = 0xe then skp s else s
    let s2 := if a = 0x1 then sknp s1 else s1
    (s2, true)
  else if d = 0xf then
    let s1 :=
      if b = 0x5 ∧ a = 0x5 then lda s
      else if b = 0x6 ∧ a = 0x5 then ldb s
      else if a = 0x5 then lddtvx s
      else s
    let s2 := if a = 0x7 then ldvxdt s1 else s1
    let s3 := if a = 0xa then ldkey s2 else s2
    let s4 := if a = 0x8 then ldstvx s3 else s3
    let s5 := if a = 0xe then addivx s4 else s4
    let s6 := if a = 0x9 then ldfont s5 else s5
    let s7 := if a = 0x3 then ldbcd s6 else s6
    (s7, true)
  else (s, true)

/-- `mainLoop` of `src/main.ts` minus the `draw()` render call: fetch the
big-endian opcode at the PC, execute it, and advance the PC by 2 when the
instruction asked for it. -/
def mainStep (s : Machine) : Machine :=
  let highByte := s.mem (qToNat s.programCounter)
  let lowByte := s.mem (qToNat (s.programCounter + 1))
  let opcode := (highByte <<< 8) ||| lowByte
  let r := executeInstruction s opcode
  if r.2 then setPC r.1 (r.1.programCounter + 2) else r.1

/-- `timerLoop("delayTimer")` of `src/main.ts`: decrement the delay timer
through the register Proxy only when it is positive. -/
def timerLoopDT (s : Machine) : Machine :=
  if s.delayTimer > 0 then setDT s (s.delayTimer - 1) else s

/-- `timerLoop("soundTimer")` of `src/main.ts`. -/
def timerLoopST (s : Machine) : Machine :=
  if s.soundTimer > 0 then setST s (s.soundTimer - 1) else s

/-- A machine in its reset state (`resetRegisters` zeroes everything and sets
PC to `ROM_START = 0x200`), with the given memory image. -/
def initMachine (mem : ℕ → ℕ) : Machine :=
  { v := fun _ => 0
    addressIndex := 0
    delayTimer := 0
    soundTimer := 0
    programCounter := 512
    stack := []
    display := fun _ => false
    mem := mem }

/-! ### Concrete machines and data for evaluation -/

/-! ### Concrete machines for evaluation -/

/-- A machine in the reset state with zeroed memory. -/
def zeroM : Machine := initMachine (fun _ => 0)

/-- An all-blank display (fresh `displayState`, every entry false). -/
def blankD : ℚ → Bool := fun _ => false

/-- A concrete machine with both timers at 5. -/
def c10m : Machine :=
  { initMachine (fun _ => 0) with delayTimer := 5, soundTimer := 5 }

/-- A machine with V0 = 5 (an odd register value). -/
def c4m : Machine := { zeroM with v := Function.update (fun _ => 0) 0 5 }

/-- A machine with V0 = 128 (most-significant bit set). -/
def c5m : Machine := { zeroM with v := Function.update (fun _ => 0) 0 128 }

/-- A machine with VF = 200 and V0 = 100. -/
def c6m : Machine := { zeroM with v := Function.update (Function.update (fun _ => 0) 15 200) 0 100 }

/-- A machine with V1 = 200 and V2 = 100. -/
def c6w : Machine :=
  { zeroM with v := Function.update (Function.update (fun _ => 0) 1 200) 2 100 }

/-- A memory image with CALL 0x300 (opcode 2300) at 0x200 and RET (00EE) at
0x300. -/
def c1mem : ℕ → ℕ := fun p =>
  if p = 512 then 0x23 else if p = 513 then 0x00
  else if p = 768 then 0x00 else if p = 769 then 0xee else 0

/-- The reset machine loaded with `c1mem`. -/
def c1m : Machine := initMachine c1mem

/-- The machine after executing the CALL of `c1m`. -/
def c1s2 : Machine := { c1m with stack := [512], programCounter := 768 }

/-- A machine whose next instruction is Fx0A (opcode F00A) — wait for key. -/
def c7m : Machine :=
  initMachine (fun p => if p = 512 then 0xf0 else if p = 513 then 0x0a else 0)

/-- A machine whose next instruction is RET (00EE) with an empty call stack. -/
def c8m : Machine :=
  initMachine (fun p => if p = 512 then 0x00 else if p = 513 then 0xee else 0)

/-- A machine with one stack entry whose next opcode is 0x011E: an undefined
pattern of family 0x0 whose low nibble is E. -/
def c9m : Machine :=
  { initMachine (fun p => if p = 512 then 0x01 else if p = 513 then 0x1e else 0) with
    stack := [1024] }

/-- A machine whose call stack already holds 16 return addresses — the
original hardware's stack bound. -/
def c8deep : Machine := { zeroM with stack := List.replicate 16 512 }

/-! ### Arithmetic facts about the JS-number helpers -/

/-- Truncation of a natural number cast is itself. -/
theorem jsTrunc_natCast (n : ℕ) : jsTrunc (n : ℚ) = (n : ℤ) := by
  unfold jsTrunc
  rw [if_neg (not_lt.mpr (Nat.cast_nonneg n)), Int.floor_natCast]

/-- `jsMod` on a natural number cast is Nat mod. -/
theorem jsMod_natCast (n m : ℕ) : jsMod (n : ℚ) (m : ℚ) = ((n % m : ℕ) : ℚ) := by
  rcases Nat.eq_zero_or_pos m with hm | hm
  · subst hm
    simp [jsMod]
  · have hfl : (⌊(n : ℚ) / (m : ℚ)⌋ : ℤ) = ((n / m : ℕ) : ℤ) := by
      rw [Rat.floor_natCast_div_natCast]
      exact Int.natCast_div n m |>.symm
    unfold jsMod
    rw [hfl, Int.cast_natCast]
    have h : ((n % m : ℕ) : ℚ) + (m : ℚ) * ((n / m : ℕ) : ℚ) = (n : ℚ) := by
      exact_mod_cast Nat.mod_add_div n m
    linarith

/-- `wrap` on a natural number cast is Nat mod. -/
theorem wrap_natCast (n m : ℕ) : wrap (n : ℚ) (m : ℚ) = ((n % m : ℕ) : ℚ) := by
  unfold wrap
  rw [if_neg (not_lt.mpr (Nat.cast_nonneg n))]
  exact jsMod_natCast n m

/-- `wrap` at the 8-bit width, on a natural number cast. -/
theorem wrap256_natCast (n : ℕ) : wrap (n : ℚ) 256 = ((n % 256 : ℕ) : ℚ) := by
  have h : ((256 : ℕ) : ℚ) = 256 := by norm_num
  rw [← h, wrap_natCast]

/-- `wrap` at the 16-bit width, on a natural number cast. -/
theorem wrap65536_natCast (n : ℕ) : wrap (n : ℚ) 65536 = ((n % 65536 : ℕ) : ℚ) := by
  have h : ((65536 : ℕ) : ℚ) = 65536 := by norm_num
  rw [← h, wrap_natCast]

/-- `toUint32` on a small natural number cast is the identity. -/
theorem toUint32_natCast (n : ℕ) (h : n < 4294967296) : toUint32 (n : ℚ) = n := by
  unfold toUint32
  rw [jsTrunc_natCast, Int.emod_eq_of_lt (by positivity) (by exact_mod_cast h)]
  exact Int.toNat_natCast n

/-- `jsAnd` on small natural number casts is Nat bitwise and. -/
theorem jsAnd_natCast (p q : ℕ) (hp : p < 2147483648) (hq : q < 4294967296) :
    jsAnd (p : ℚ) (q : ℚ) = ((p &&& q : ℕ) : ℚ) := by
  unfold jsAnd fromInt32bits
  rw [toUint32_natCast p (by omega), toUint32_natCast q hq,
    if_pos (lt_of_le_of_lt Nat.and_le_left hp)]

/-- Bitwise and with 0xff is mod 256. -/
theorem and_255_eq_mod (k : ℕ) : k &&& 255 = k % 256 := by
  have h : (255 : ℕ) = 2 ^ 8 - 1 := by norm_num
  rw [h, Nat.and_pow_two_sub_one_eq_mod]

/-! ### Timer behaviour -/

/-- One delay-timer tick on a register holding the integer t ≤ 255 yields t - 1
(floored at 0). -/
theorem timerLoopDT_val (s : Machine) (t : ℕ) (ht : t ≤ 255) (h : s.delayTimer = t) :
    (timerLoopDT s).delayTimer = ((t - 1 : ℕ) : ℚ) := by
  unfold timerLoopDT
  by_cases hpos : s.delayTimer > 0
  · rw [if_pos hpos]
    show wrap (s.delayTimer - 1) 256 = _
    rw [h]
    have ht0 : 0 < t := by
      rw [h] at hpos
      exact_mod_cast hpos
    have h1 : (t : ℚ) - 1 = ((t - 1 : ℕ) : ℚ) := by
      rw [Nat.cast_sub (by omega : 1 ≤ t)]
      norm_num
    rw [h1, wrap256_natCast, Nat.mod_eq_of_lt (by omega)]
  · rw [if_neg hpos, h]
    have h0 : t = 0 := by
      rw [h] at hpos
      by_contra hne
      exact hpos (by exact_mod_cast Nat.pos_of_ne_zero hne)
    subst h0
    norm_num

/-- One sound-timer tick on a register holding the integer t ≤ 255 yields t - 1
(floored at 0). -/
theorem timerLoopST_val (s : Machine) (t : ℕ) (ht : t ≤ 255) (h : s.soundTimer = t) :
    (timerLoopST s).soundTimer = ((t - 1 : ℕ) : ℚ) := by
  unfold timerLoopST
  by_cases hpos : s.soundTimer > 0
  · rw [if_pos hpos]
    show wrap (s.soundTimer - 1) 256 = _
    rw [h]
    have ht0 : 0 < t := by
      rw [h] at hpos
      exact_mod_cast hpos
    have h1 : (t : ℚ) - 1 = ((t - 1 : ℕ) : ℚ) := by
      rw [Nat.cast_sub (by omega : 1 ≤ t)]
      norm_num
    rw [h1, wrap256_natCast, Nat.mod_eq_of_lt (by omega)]
  · rw [if_neg hpos, h]
    have h0 : t = 0 := by
      rw [h] at hpos
      by_contra hne
      exact hpos (by exact_mod_cast Nat.pos_of_ne_zero hne)
    subst h0
    norm_num

/-- n consecutive delay-timer ticks subtract n, floored at 0. -/
theorem timerLoopDT_iter (n : ℕ) : ∀ (s : Machine) (t : ℕ), t ≤ 255 → s.delayTimer = t →
    (timerLoopDT^[n] s).delayTimer = ((t - n : ℕ) : ℚ) := by
  induction n with
  | zero =>
      intro s t ht h
      simpa using h
  | succ k ih =>
      intro s t ht h
      rw [Function.iterate_succ_apply]
      have h1 := timerLoopDT_val s t ht h
      have h2 := ih (timerLoopDT s) (t - 1) (by omega) h1
      rw [h2, Nat.sub_sub]
      norm_num [Nat.add_comm]

/-- n consecutive sound-timer ticks subtract n, floored at 0. -/
theorem timerLoopST_iter (n : ℕ) : ∀ (s : Machine) (t : ℕ), t ≤ 255 → s.soundTimer = t →
    (timerLoopST^[n] s).soundTimer = ((t - n : ℕ) : ℚ) := by
  induction n with
  | zero =>
      intro s t ht h
      simpa using h
  | succ k ih =>
      intro s t ht h
      rw [Function.iterate_succ_apply]
      have h1 := timerLoopST_val s t ht h
      have h2 := ih (timerLoopST s) (t - 1) (by omega) h1
      rw [h2, Nat.sub_sub]
      norm_num [Nat.add_comm]

/-- C10: for every timer value 0-255, a tick at 0 is a no-op, a tick at a
positive value decrements by exactly 1, and n consecutive ticks subtract n
with the floor at 0 — for both the delay and the sound timer of `mainLoop`'s
`timerLoop` in `src/main.ts`. -/
theorem c10_timer_floor (s : Machine) (t n : ℕ) (ht : t ≤ 255)
    (hdt : s.delayTimer = t) (hst : s.soundTimer = t) :
    (t = 0 → (timerLoopDT s).delayTimer = 0 ∧ (timerLoopST s).soundTimer = 0) ∧
    (0 < t → (timerLoopDT s).delayTimer = ((t - 1 : ℕ) : ℚ) ∧
      (timerLoopST s).soundTimer = ((t - 1 : ℕ) : ℚ)) ∧
    (timerLoopDT^[n] s).delayTimer = ((t - n : ℕ) : ℚ) ∧
    (timerLoopST^[n] s).soundTimer = ((t - n : ℕ) : ℚ) := by
  refine ⟨?_, ?_, ?_, ?_⟩
  · intro h0
    subst h0
    have hd := timerLoopDT_val s 0 (by omega) hdt
    have hs := timerLoopST_val s 0 (by omega) hst
    norm_num at hd hs
    exact ⟨hd, hs⟩
  · intro hpos
    exact ⟨timerLoopDT_val s t ht hdt, timerLoopST_val s t ht hst⟩
  · exact timerLoopDT_iter n s t ht hdt
  · exact timerLoopST_iter n s t ht hst


/-- Witness for C10 at t = 5, n = 2. -/
theorem c10_witness :
    ((5 : ℕ) = 0 → (timerLoopDT c10m).delayTimer = 0 ∧ (timerLoopST c10m).soundTimer = 0) ∧
    (0 < (5 : ℕ) → (timerLoopDT c10m).delayTimer = (((5 : ℕ) - 1 : ℕ) : ℚ) ∧
      (timerLoopST c10m).soundTimer = (((5 : ℕ) - 1 : ℕ) : ℚ)) ∧
    (timerLoopDT^[2] c10m).delayTimer = (((5 : ℕ) - 2 : ℕ) : ℚ) ∧
    (timerLoopST^[2] c10m).soundTimer = (((5 : ℕ) - 2 : ℕ) : ℚ) :=
  c10_timer_floor c10m 5 2 (by norm_num) (by norm_num [c10m, initMachine]) (by norm_num [c10m, initMachine])


/-- C3: register writes do NOT always store `input mod width`: writing -256 to
an 8-bit register stores 256 (the Proxy computes `max - (|value| % max)`,
which is `max` when `|value|` is a multiple of `max`), outside the declared
8-bit range, and writing -65536 to the 16-bit PC stores 65536; mathematical
mod would give 0 in both cases. -/
theorem c3_wrap_overflow_bug :
    (setV zeroM 0 (-256)).v 0 = 256 ∧
    (setPC zeroM (-65536)).programCounter = 65536 ∧
    (-256 : ℤ) % 256 = 0 ∧ (-65536 : ℤ) % 65536 = 0 := by
  refine ⟨?_, ?_, by decide, by decide⟩
  · have h : (setV zeroM 0 (-256)).v 0 = wrap (-256) 256 := by
      simp [setV]
    rw [h]
    norm_num [wrap, jsMod]
  · have h : (setPC zeroM (-65536)).programCounter = wrap (-65536) 65536 := rfl
    rw [h]
    norm_num [wrap, jsMod]


/-- C2: `toggleTile` does not reduce coordinates modulo the grid: toggling
(64, 0) flips linear index 64 — which is cell (0, 1) — and leaves index 0
untouched, while toggling (0, 0) flips index 0; toggling (0, 32) flips index
2048, one past the last cell of the 64 x 32 grid, again leaving index 0
untouched.  So neither (64, 0) nor (0, 32) is equivalent to (0, 0). -/
theorem c2_no_wraparound_bug :
    (toggleTile blankD 64 0).1 64 = true ∧
    (toggleTile blankD 64 0).1 0 = false ∧
    (toggleTile blankD 0 0).1 0 = true ∧
    (toggleTile blankD 0 32).1 2048 = true ∧
    (toggleTile blankD 0 32).1 0 = false := by
  refine ⟨?_, ?_, ?_, ?_, ?_⟩ <;> norm_num [toggleTile, blankD]


/-- C4: SHR on V0 = 5 sets VF to the least-significant bit (1, as the claim
says) but stores the JS quotient 5/2 = 2.5 in V0 instead of the unsigned
shift 5 >>> 1 = 2: the register ends up non-integral. -/
theorem c4_shr_fractional_bug :
    (shr c4m 0).v (regIdx 0) = 5 / 2 ∧ (shr c4m 0).v 15 = 1 ∧
    ((5 : ℚ) / 2) ≠ ((((5 : ℕ) >>> 1) : ℕ) : ℚ) := by
  refine ⟨?_, ?_, by norm_num [show ((5 : ℕ) >>> 1) = 2 from rfl]⟩ <;>
    simp +decide [shr, c4m, zeroM, initMachine, setV, regIdx, jsAnd, toUint32, jsTrunc,
      fromInt32bits, Function.update] <;>
    norm_num [wrap, jsMod]


/-- C5: SHL on V0 = 128 must set VF to the most-significant bit, 1; the code
compares `(Vx & 0x80) === 1`, which is false for every value (the mask result
is 0 or 128), so VF is 0.  The data part matches the claim: V0 becomes
(128 * 2) mod 256 = 0. -/
theorem c5_shl_flag_bug :
    (shl c5m 0).v 15 = 0 ∧ (shl c5m 0).v (regIdx 0) = 0 := by
  constructor <;>
    simp +decide [shl, c5m, zeroM, initMachine, setV, regIdx, jsAnd, toUint32, jsTrunc,
      fromInt32bits, Function.update] <;>
    norm_num [wrap, jsMod]


/-- C6 counterexample: with x = F, ADD VF, V0 where VF = 200, V0 = 100 has
carry (300 > 255), so a final flag write would leave VF = 1; the code instead
ends with VF = 300 & 0xff = 44, because the data write comes after the flag
write. -/
theorem c6_flag_overwritten :
    (addReg c6m 15 0).v 15 = 44 ∧ ((44 : ℚ) ≠ 1) := by
  refine ⟨?_, by norm_num⟩
  simp +decide [addReg, c6m, zeroM, initMachine, setV, regIdx, jsAnd, toUint32, jsTrunc,
    fromInt32bits, Function.update]
  norm_num [wrap, jsMod, show (Int.toNat 300 &&& 255) = 44 from rfl]

/-- `qToNat` on a natural number cast is the identity. -/
theorem qToNat_natCast (n : ℕ) : qToNat (n : ℚ) = n := by
  unfold qToNat
  rw [jsTrunc_natCast]
  exact Int.toNat_natCast n

/-- Decode of opcode 0x2300: family 2 dispatches to `call` with nnn = 0x300
and no PC advance. -/
theorem hexec2300 (s : Machine) : executeInstruction s 0x2300 = (call s 3 0 0, false) := rfl

/-- Decode of opcode 0x00EE: family 0 with a = E dispatches to `ret` with no
PC advance. -/
theorem hexec00ee (s : Machine) : executeInstruction s 0x00ee = (ret s, false) := rfl

/-- Decode of opcode 0xF00A: dispatches to the `ldkey` stub, leaving the
state unchanged, with the PC advance flag set. -/
theorem hexecF00A (s : Machine) : executeInstruction s 0xf00a = (s, true) := rfl

/-- Decode of opcode 0x011E: an undefined family-0 pattern whose low nibble is
E nevertheless dispatches to `ret` and suppresses the PC advance. -/
theorem hexec011e (s : Machine) : executeInstruction s 0x011e = (ret s, false) := rfl

/-- C6 (amended): ADD Vx, Vy writes the carry flag to VF first and the data
second: for x ≠ F the final state has Vx = (Vx+Vy) mod 256 and VF = carry,
but for x = F the data write overwrites the flag, leaving VF = (VF+Vy) mod 256. -/
theorem c6_addReg_amended (s : Machine) (x y : ℕ) (hx : x < 16) (hy : y < 16)
    (vx vy : ℕ) (hvx : s.v (regIdx x) = vx) (hvy : s.v (regIdx y) = vy)
    (hvx8 : vx ≤ 255) (hvy8 : vy ≤ 255) :
    (x ≠ 15 → (addReg s x y).v (regIdx x) = (((vx + vy) % 256 : ℕ) : ℚ) ∧
      (addReg s x y).v 15 = (if 255 < vx + vy then (1 : ℚ) else 0)) ∧
    (x = 15 → (addReg s x y).v 15 = (((vx + vy) % 256 : ℕ) : ℚ)) := by
  have hsum : s.v (regIdx x) + s.v (regIdx y) = ((vx + vy : ℕ) : ℚ) := by
    rw [hvx, hvy]
    push_cast
    ring
  have hand : jsAnd ((vx + vy : ℕ) : ℚ) 255 = (((vx + vy) % 256 : ℕ) : ℚ) := by
    have h255 : (255 : ℚ) = ((255 : ℕ) : ℚ) := by norm_num
    rw [h255, jsAnd_natCast (vx + vy) 255 (by omega) (by omega), and_255_eq_mod]
  have hmm2 : (vx + vy) % 256 % 256 = (vx + vy) % 256 := by omega
  have hflag : wrap (if ((vx + vy : ℕ) : ℚ) > 255 then 1 else 0) 256
      = (if 255 < vx + vy then (1 : ℚ) else 0) := by
    have hiff : (((vx + vy : ℕ) : ℚ) > 255) ↔ (255 < vx + vy) := by
      exact_mod_cast Iff.rfl
    rw [if_congr hiff rfl rfl]
    split_ifs <;> norm_num [wrap, jsMod]
  constructor
  · intro hne
    have hxne : regIdx x ≠ (15 : Fin 16) := by
      intro hcontra
      apply hne
      have h2 := congrArg Fin.val hcontra
      simp [regIdx] at h2
      omega
    constructor
    · simp only [addReg, setV, Function.update_apply, if_true]
      rw [hsum, hand, wrap256_natCast, hmm2]
    · simp only [addReg, setV, Function.update_apply]
      rw [if_neg (Ne.symm hxne)]
      simp only [if_true]
      rw [hsum, hflag]
  · intro h15
    subst h15
    have hr : regIdx 15 = (15 : Fin 16) := rfl
    rw [hr] at hsum
    simp only [addReg, setV, Function.update_apply, hr, if_true]
    rw [hsum, hand, wrap256_natCast, hmm2]

/-- Witness for the amended C6 at x = 1, y = 2, V1 = 200, V2 = 100. -/
theorem c6_addReg_amended_witness :
    ((1 : ℕ) ≠ 15 → (addReg c6w 1 2).v (regIdx 1) = ((((200 : ℕ) + 100) % 256 : ℕ) : ℚ) ∧
      (addReg c6w 1 2).v 15 = (if 255 < (200 : ℕ) + 100 then (1 : ℚ) else 0)) ∧
    ((1 : ℕ) = 15 → (addReg c6w 1 2).v 15 = ((((200 : ℕ) + 100) % 256 : ℕ) : ℚ)) :=
  c6_addReg_amended c6w 1 2 (by norm_num) (by norm_num) 200 100
    (by simp +decide [c6w, zeroM, initMachine, regIdx, Function.update])
    (by simp +decide [c6w, zeroM, initMachine, regIdx, Function.update])
    (by norm_num) (by norm_num)

/-- C1: executing CALL 0x300 from PC = 0x200 pushes 0x200 (the address of the
CALL itself, not of the next instruction) and jumps to 0x300; the subsequent
RET restores PC = 0x200 = pc_before_call, NOT pc_before_call + 2 — the
machine re-executes the CALL forever. -/
theorem c1_call_ret_loop :
    (mainStep c1m).programCounter = 768 ∧
    (mainStep c1m).stack = [512] ∧
    (mainStep (mainStep c1m)).programCounter = 512 ∧
    ((512 : ℚ) ≠ 512 + 2) := by
  have hq1 : qToNat c1m.programCounter = 512 := by
    show qToNat (512 : ℚ) = 512
    rw [show (512 : ℚ) = ((512 : ℕ) : ℚ) by norm_num, qToNat_natCast]
  have hq2 : qToNat (c1m.programCounter + 1) = 513 := by
    show qToNat ((512 : ℚ) + 1) = 513
    rw [show (512 : ℚ) + 1 = ((513 : ℕ) : ℚ) by norm_num, qToNat_natCast]
  have hop : (c1m.mem (qToNat c1m.programCounter)) <<< 8 |||
      c1m.mem (qToNat (c1m.programCounter + 1)) = 0x2300 := by
    rw [hq1, hq2]
    decide
  have hstep1 : mainStep c1m = call c1m 3 0 0 := by
    simp [mainStep, hop, hexec2300]
  have hcall : call c1m 3 0 0 = c1s2 := by
    simp only [call, setPC, c1s2]
    simp [c1m, initMachine, show nnn 3 0 0 = 768 from rfl,
      show ((768 : ℕ) : ℚ) = (768 : ℚ) from by norm_num]
    norm_num [wrap, jsMod]
  have hq3 : qToNat c1s2.programCounter = 768 := by
    show qToNat (768 : ℚ) = 768
    rw [show (768 : ℚ) = ((768 : ℕ) : ℚ) by norm_num, qToNat_natCast]
  have hq4 : qToNat (c1s2.programCounter + 1) = 769 := by
    show qToNat ((768 : ℚ) + 1) = 769
    rw [show (768 : ℚ) + 1 = ((769 : ℕ) : ℚ) by norm_num, qToNat_natCast]
  have hop2 : (c1s2.mem (qToNat c1s2.programCounter)) <<< 8 |||
      c1s2.mem (qToNat (c1s2.programCounter + 1)) = 0x00ee := by
    rw [hq3, hq4]
    decide
  have hstep2 : mainStep c1s2 = ret c1s2 := by
    simp [mainStep, hop2, hexec00ee]
  have hret : (ret c1s2).programCounter = 512 := by
    have h : ret c1s2 = setPC { c1s2 with stack := [] } 512 := by
      simp [ret, c1s2, c1m, initMachine]
    rw [h]
    show wrap (512 : ℚ) 65536 = 512
    norm_num [wrap, jsMod]
  refine ⟨?_, ?_, ?_, by norm_num⟩
  · rw [hstep1, hcall]
    rfl
  · rw [hstep1, hcall]
    rfl
  · rw [hstep1, hcall, hstep2, hret]

/-- C7: Fx0A is an empty stub: executing opcode 0xF00A leaves any machine
unchanged and reports that the PC should advance; on the concrete machine
`c7m` with NO key model at all, the step completes immediately with
PC = 0x202 and no register, stack, or display change — the step never
blocks and Vx is never written. -/
theorem c7_ldkey_stub_no_block (s : Machine) :
    executeInstruction s 0xf00a = (s, true) ∧
    (mainStep c7m).programCounter = 514 ∧
    (mainStep c7m).v = c7m.v ∧ (mainStep c7m).stack = c7m.stack ∧
    (mainStep c7m).display = c7m.display := by
  have hq1 : qToNat c7m.programCounter = 512 := by
    show qToNat (512 : ℚ) = 512
    rw [show (512 : ℚ) = ((512 : ℕ) : ℚ) by norm_num, qToNat_natCast]
  have hq2 : qToNat (c7m.programCounter + 1) = 513 := by
    show qToNat ((512 : ℚ) + 1) = 513
    rw [show (512 : ℚ) + 1 = ((513 : ℕ) : ℚ) by norm_num, qToNat_natCast]
  have hop : (c7m.mem (qToNat c7m.programCounter)) <<< 8 |||
      c7m.mem (qToNat (c7m.programCounter + 1)) = 0xf00a := by
    rw [hq1, hq2]
    decide
  have hstep : mainStep c7m = setPC c7m (c7m.programCounter + 2) := by
    simp [mainStep, hop, hexecF00A]
  refine ⟨hexecF00A s, ?_, ?_, ?_, ?_⟩
  · rw [hstep]
    show wrap ((512 : ℚ) + 2) 65536 = 514
    norm_num [wrap, jsMod]
  · rw [hstep]
    rfl
  · rw [hstep]
    rfl
  · rw [hstep]
    rfl

/-- C8 (amended): executing RET with an empty call stack is a silent no-op —
the state is returned unchanged (with the advance flag false, so the PC stays
on the RET) — and CALL pushes unconditionally on EVERY machine, growing the
stack by one entry at any depth (the empty-stack hypothesis constrains only
the RET machine `s`, not the CALL machine `s2`); no failure condition of any
kind is surfaced. -/
theorem c8_silent_stack (s s2 : Machine) (c b a : ℕ) (h : s.stack = []) :
    executeInstruction s 0x00ee = (s, false) ∧
    (call s2 c b a).stack.length = s2.stack.length + 1 := by
  constructor
  · rw [hexec00ee]
    have hr : ret s = s := by
      unfold ret
      rw [h]
    rw [hr]
  · simp [call, setPC]

/-- Witness for the amended C8: the empty-stack machine `c8m` for the RET
half, and the machine `c8deep` already at the original hardware's bound of
16 entries for the CALL half — the push still succeeds, growing it to 17. -/
theorem c8_silent_stack_witness :
    executeInstruction c8m 0x00ee = (c8m, false) ∧
    (call c8deep 3 0 0).stack.length = c8deep.stack.length + 1 :=
  c8_silent_stack c8m c8deep 3 0 0 rfl

/-- C8 counterexample: a full driver step on the empty-stack RET machine is
the identity — execution silently stalls on the RET instruction; nothing
distinguishable from normal progress is produced, contradicting the claim
that the condition is surfaced as a distinct failure. -/
theorem c8_ret_empty_silent : mainStep c8m = c8m := by
  have hq1 : qToNat c8m.programCounter = 512 := by
    show qToNat (512 : ℚ) = 512
    rw [show (512 : ℚ) = ((512 : ℕ) : ℚ) by norm_num, qToNat_natCast]
  have hq2 : qToNat (c8m.programCounter + 1) = 513 := by
    show qToNat ((512 : ℚ) + 1) = 513
    rw [show (512 : ℚ) + 1 = ((513 : ℕ) : ℚ) by norm_num, qToNat_natCast]
  have hop : (c8m.mem (qToNat c8m.programCounter)) <<< 8 |||
      c8m.mem (qToNat (c8m.programCounter + 1)) = 0x00ee := by
    rw [hq1, hq2]
    decide
  have hstep : mainStep c8m = ret c8m := by
    simp [mainStep, hop, hexec00ee]
  rw [hstep]
  rfl

/-- C9 counterexample: opcode 0x011E is an undefined pattern of family 0x0,
yet executing it runs RET: with stack [1024] the step pops the stack and sets
PC = 1024 instead of leaving the state unchanged and advancing PC to 0x202. -/
theorem c9_family0_executes_ret :
    (mainStep c9m).programCounter = 1024 ∧ (mainStep c9m).stack = [] ∧
    ((1024 : ℚ) ≠ 512 + 2) := by
  have hq1 : qToNat c9m.programCounter = 512 := by
    show qToNat (512 : ℚ) = 512
    rw [show (512 : ℚ) = ((512 : ℕ) : ℚ) by norm_num, qToNat_natCast]
  have hq2 : qToNat (c9m.programCounter + 1) = 513 := by
    show qToNat ((512 : ℚ) + 1) = 513
    rw [show (512 : ℚ) + 1 = ((513 : ℕ) : ℚ) by norm_num, qToNat_natCast]
  have hop : (c9m.mem (qToNat c9m.programCounter)) <<< 8 |||
      c9m.mem (qToNat (c9m.programCounter + 1)) = 0x011e := by
    rw [hq1, hq2]
    decide
  have hstep : mainStep c9m = ret c9m := by
    simp [mainStep, hop, hexec011e]
  have hret : ret c9m = setPC { c9m with stack := [] } 1024 := by
    simp [ret, c9m, initMachine]
  rw [hstep, hret]
  refine ⟨?_, rfl, by norm_num⟩
  show wrap (1024 : ℚ) 65536 = 1024
  norm_num [wrap, jsMod]

/-- C9 (amended): undefined patterns under families 0x8 (low nibble not an
assigned 0-7 or E), 0x0 (low nibble neither 0 nor E), and every pattern under
families 0xE and 0xF (all their handlers are stubs) leave the machine
unchanged and set the advance flag, so the driver advances the PC by 2;
family-0 patterns with low nibble 0 or E instead invoke CLS or RET. -/
theorem c9_undefined_noop (s : Machine) (op : ℕ)
    (h : ((0xf000 &&& op) >>> 12 = 8 ∧ (0x000f &&& op) ∉ ([0, 1, 2, 3, 4, 5, 6, 7, 14] : List ℕ)) ∨
      ((0xf000 &&& op) >>> 12 = 0 ∧ (0x000f &&& op) ∉ ([0, 14] : List ℕ)) ∨
      (0xf000 &&& op) >>> 12 = 14 ∨ (0xf000 &&& op) >>> 12 = 15) :
    executeInstruction s op = (s, true) := by
  rcases h with ⟨hd, ha⟩ | ⟨hd, ha⟩ | hd | hd
  · simp only [List.mem_cons, List.not_mem_nil, or_false, not_or] at ha
    obtain ⟨h0, h1, h2, h3, h4, h5, h6, h7, he⟩ := ha
    simp [executeInstruction, hd, h0, h1, h2, h3, h4, h5, h6, h7, he]
  · simp only [List.mem_cons, List.not_mem_nil, or_false, not_or] at ha
    obtain ⟨h0, he⟩ := ha
    simp [executeInstruction, hd, h0, he]
  · simp [executeInstruction, hd, skp, sknp, ite_self]
  · simp [executeInstruction, hd, lda, ldb, lddtvx, ldvxdt, ldkey, ldstvx, addivx, ldfont,
      ldbcd, ite_self]

/-- Witness for the amended C9: opcode 0x8008 (family 8, unassigned low
nibble 8) leaves the reset machine unchanged with the advance flag set. -/
theorem c9_undefined_noop_witness : executeInstruction zeroM 0x8008 = (zeroM, true) :=
  c9_undefined_noop zeroM 0x8008 (Or.inl ⟨by decide, by decide⟩)
